import Mathlib

/-!
Verification of the ThreadlessWeb server core (threadlessweb.c / threadlessweb.h).

The development shallowly embeds the C sources: byte buffers are `List Nat`
(one `Nat` per `unsigned char`), C ints that can be negative are `Int`,
fallible or process-exiting operations return `Option` or a dedicated
outcome type.  Every definition is a direct translation of the function of
the same name in threadlessweb.c; comments cite the relevant source lines.
-/

/-- ASCII carriage return. -/
def CR : Nat := 13

/-- ASCII line feed. -/
def LF : Nat := 10

/-- Test used at threadlessweb.c:125 and 158: is the byte a CR or an LF? -/
def isCRLF (b : Nat) : Bool := b == CR || b == LF

/-- ASCII tolower, as used by strncasecmp on each byte. -/
def toLower (b : Nat) : Nat := if 65 ≤ b ∧ b ≤ 90 then b + 32 else b

/-- BUFSIZE from threadlessweb.c:39. -/
def BUFSIZE : Nat := 8096

/-- VERSION from threadlessweb.h:40. -/
def VERSION : Nat := 23

/-- RESPONSE_ERROR from threadlessweb.h:41 (stored into the `type` field by
`conversation_new`, threadlessweb.c:412). -/
def RESPONSE_ERROR : Int := 42

/-- RESPONSE_FORBIDDEN from threadlessweb.h:42. -/
def RESPONSE_FORBIDDEN : Int := 403

/-- REQUEST_INVALID from threadlessweb.h:47; the C enum value is -1. -/
def REQUEST_INVALID : Int := -1

/-- REQUEST_GET from threadlessweb.h:49; the C enum value is 0. -/
def REQUEST_GET : Int := 0

/-- REQUEST_POST from threadlessweb.h:50; the C enum value is 1. -/
def REQUEST_POST : Int := 1

/-- REQUEST_NUM from threadlessweb.h:52; the C enum value is 2. -/
def REQUEST_NUM : Int := 2

/-- The bytes of RESPONSE_CONTENT "Okay\n" (threadlessweb.c:41), terminator
excluded; the literal occupies these five bytes plus a NUL in memory. -/
def RESPONSE_CONTENT : List Nat := [79, 107, 97, 121, 10]

/-- RESPONSE_LENGTH (threadlessweb.c:43) is sizeof RESPONSE_CONTENT, which
counts the NUL terminator: 6, not 5. -/
def RESPONSE_LENGTH : Nat := RESPONSE_CONTENT.length + 1

/-- RESPONSE_TYPE from threadlessweb.c:42. -/
def RESPONSE_TYPE : String := "text/html"

/-- FD_SETSIZE as on the Linux target (glibc). -/
def FD_SETSIZE : Int := 1024

/-- The WebserveConv record from threadlessweb.h:57-67.  The `type` field is
declared with the REQUEST enum but is an int at runtime; `conversation_new`
stores RESPONSE_ERROR (42) into it, so it is modelled as `Int`.  Owned byte
buffers are `Option (List Nat)` (NULL is `none`). -/
structure Conv where
  hit : Nat
  type : Int
  request_header : Option (List Nat)
  request_header_size : Nat
  request_body : Option (List Nat)
  request_body_size : Nat
  response_code : Int
  response : Option (List Nat)
  response_size : Nat
deriving DecidableEq, Repr

/-- A WebserveConv fresh from `calloc` (threadlessweb.c:410): every field
zero / NULL. -/
def conv_calloc : Conv :=
  { hit := 0, type := 0,
    request_header := none, request_header_size := 0,
    request_body := none, request_body_size := 0,
    response_code := 0, response := none, response_size := 0 }

/-- The boundary-search loop of `web_read` (threadlessweb.c:121-137).
The C loop scans `buffer[0..ret)` with a running count of consecutive
CR/LF bytes; at the first non-CR/LF byte preceded by a run of at least
four CR/LF bytes it records that index and stops.  `none` models the loop
finishing with `boundary == ret`. -/
def boundaryLoop : List Nat → Nat → Nat → Option Nat
  | [], _, _ => none
  | b :: rest, i, retcount =>
    if isCRLF b then boundaryLoop rest (i + 1) (retcount + 1)
    else if 4 ≤ retcount then some i
    else boundaryLoop rest (i + 1) 0

/-- The boundary between header and body chosen by `web_read`
(threadlessweb.c:120-137): the loop's result, defaulting to the full
length of the buffer (`boundary = ret`). -/
def find_boundary (buffer : List Nat) : Nat :=
  (boundaryLoop buffer 0 0).getD buffer.length

/-- The header segment copied into `conversation->request_header`
(threadlessweb.c:141-146): the first `boundary` bytes of the buffer (the
trailing NUL the C code appends is not part of the owned content, whose
size is `boundary`). -/
def request_header (buffer : List Nat) : List Nat :=
  buffer.take (find_boundary buffer)

/-- The body segment copied into `conversation->request_body`
(threadlessweb.c:148-153): the `ret - boundary` bytes from the boundary on. -/
def request_body (buffer : List Nat) : List Nat :=
  buffer.drop (find_boundary buffer)

/-- The CR/LF scrub applied to the buffer before logging and method
classification (threadlessweb.c:157-161): every CR or LF becomes `'*'`
(byte 42). -/
def scrub (buffer : List Nat) : List Nat :=
  buffer.map fun b => if isCRLF b then 42 else b

/-- Models `strncasecmp(buffer, p, p.length) == 0` where `p` is one of the
NUL-free prefixes of the `requests` table: the comparison succeeds exactly
when the buffer starts with the prefix up to ASCII case.  If the buffer
runs out first, the C comparison meets the buffer's NUL terminator against
a non-NUL prefix byte and fails, which the `[]` case mirrors. -/
def strncasecmpEq : List Nat → List Nat → Bool
  | _, [] => true
  | [], _ :: _ => false
  | b :: bs, p :: ps => (toLower b == toLower p) && strncasecmpEq bs ps

/-- The `requests` table from threadlessweb.c:57-60: the bytes of
"GET " and "POST ", in that order. -/
def requests : List (List Nat) := [[71, 69, 84, 32], [80, 79, 83, 84, 32]]

/-- The classification loop of `web_read` (threadlessweb.c:164-173): the
first prefix of the table that matches wins; the result is the pair of the
REQUEST enum value (`REQUEST_INVALID` when nothing matches) and
`prefixsize` (`strlen` of the matched entry, 0 when nothing matches). -/
def classifyAux : List (List Nat) → Int → List Nat → Int × Nat
  | [], _, _ => (REQUEST_INVALID, 0)
  | r :: rs, idx, buffer =>
    if strncasecmpEq buffer r then (idx, r.length)
    else classifyAux rs (idx + 1) buffer

/-- Method classification over the fixed `requests` table
(threadlessweb.c:164-173). -/
def classify (buffer : List Nat) : Int × Nat :=
  classifyAux requests 0 buffer

/-- Models threadlessweb.c:117-119: when the read fills the whole buffer
(`ret == BUFSIZE`), the code zero-terminates at position 0. -/
def zeroFirst : List Nat → List Nat
  | [] => []
  | _ :: rest => 0 :: rest

/-- The buffer-termination step of `web_read` (threadlessweb.c:112-119):
a partial read is NUL-terminated after its last byte (which leaves the
`ret` content bytes untouched), while a full read of BUFSIZE bytes gets a
NUL written at position 0. -/
def read_terminate (bytes : List Nat) : List Nat :=
  if bytes.length < BUFSIZE then bytes else zeroFirst bytes

/-- Outcome of `web_read` (threadlessweb.c:87-193).  `exits code wrote403`
models the process terminating via `exit(code)` after `forbidden(fd)` wrote
the canned 403 document when `wrote403` is true; `ok` models the function
returning normally with the (possibly NULL) conversation updated. -/
inductive ReadOutcome where
  | exits (code : Nat) (wrote403 : Bool)
  | ok (conversation : Option Conv)
deriving DecidableEq, Repr

/-- Shallow embedding of `web_read` (threadlessweb.c:87-193).  `read_result`
is `none` when `read` returned 0 or -1, otherwise the bytes read
(`0 < length ≤ BUFSIZE`).  The final loop at threadlessweb.c:186-192 only
rewrites the transient static buffer after all conversation fields are
filled, so it has no observable effect and is not modelled. -/
def web_read (read_result : Option (List Nat)) (conversation : Option Conv) :
    ReadOutcome :=
  match read_result with
  | none => ReadOutcome.exits 3 true
  | some bytes =>
    let buffer := read_terminate bytes
    let boundary := find_boundary buffer
    let conv1 : Option Conv := conversation.map fun c =>
      { c with
        request_header := some (request_header buffer),
        request_header_size := boundary,
        request_body := some (request_body buffer),
        request_body_size := buffer.length - boundary }
    let tp := (classify (scrub buffer)).1
    let conv2 := conv1.map fun c => { c with type := tp }
    if tp ≤ REQUEST_INVALID ∨ REQUEST_NUM ≤ tp then ReadOutcome.exits 3 true
    else ReadOutcome.ok conv2

/-- The response header produced by `web_write`'s sprintf
(threadlessweb.c:214): always status 200, with the Content-Length field
taken from the `length` variable. -/
def http_header (length : Nat) : String :=
  "HTTP/1.1 200 OK\nServer: nweb/" ++ toString VERSION ++
    ".0\nContent-Length: " ++ toString length ++
    "\nConnection: close\nContent-Type: " ++ RESPONSE_TYPE ++ "\n\n"

/-- What `web_write` (threadlessweb.c:195-226) sends and does: the header
string, the `length` bytes of payload written by the second `write`, the
Content-Length value embedded in the header, and whether the descriptor
was closed. -/
structure WriteResult where
  header : String
  payload : List Nat
  content_length : Nat
  closed : Bool
deriving DecidableEq, Repr

/-- Shallow embedding of `web_write` (threadlessweb.c:195-226).  When the
conversation is NULL or carries no response, `content` points at the
string literal "Okay\n" and `length` is RESPONSE_LENGTH = sizeof = 6, so
the six bytes written are the five content bytes plus the literal's NUL
terminator.  `write(fd, content, length)` sends exactly `length` bytes of
the owned buffer, modelled with `take` (callers keep
`response_size ≤ response.length`, so no out-of-bounds read is modelled). -/
def web_write (conversation : Option Conv) : WriteResult :=
  let cl : List Nat × Nat :=
    match conversation with
    | none => (RESPONSE_CONTENT ++ [0], RESPONSE_LENGTH)
    | some c =>
      match c.response with
      | some r => (r, c.response_size)
      | none => (RESPONSE_CONTENT ++ [0], RESPONSE_LENGTH)
  { header := http_header cl.2, payload := cl.1.take cl.2,
    content_length := cl.2, closed := true }

/-- Shallow embedding of `default_conv_callback` (threadlessweb.c:447-452):
it mallocs RESPONSE_LENGTH + 1 bytes and `strncpy`s at most RESPONSE_LENGTH
= 6 bytes of "Okay\n", i.e. the five content bytes and the NUL terminator;
`response_size` becomes 6 and the callback returns true.  A callback is
modelled as `Conv → Bool × Conv`: the returned Bool is the C return value,
the returned Conv the conversation after the callback's writes. -/
def default_conv_callback (conversation : Conv) : Bool × Conv :=
  (true,
   { conversation with
     response := some (RESPONSE_CONTENT ++ [0]),
     response_size := RESPONSE_LENGTH })

/-- Shallow embedding of `set_conv_callback` (threadlessweb.c:436-445): a
NULL argument installs `default_conv_callback`, so the active callback
field is never NULL. -/
def set_conv_callback (cb : Option (Conv → Bool × Conv)) :
    Conv → Bool × Conv :=
  cb.getD default_conv_callback

/-- The callback dispatch of `poll_once` (threadlessweb.c:369-375).  The C
code runs the registered callback when the pointer is non-NULL, then tests
`(webserve->conversation_callback == NULL) || (conv_result = false)`.
The right disjunct is an assignment, not a comparison: it stores `false`
into `conv_result` and evaluates to `false`, so `default_conv_callback`
runs in the fallback position only when the callback pointer is NULL.  The
second component of the result records whether that fallback ran. -/
def dispatch_callback (cb : Option (Conv → Bool × Conv))
    (conversation : Conv) : Conv × Bool :=
  match cb with
  | none => ((default_conv_callback conversation).2, true)
  | some f => ((f conversation).2, false)

/-- A registered callback that declines to produce a response: it leaves
the conversation untouched and returns false. -/
def refuse_callback : Conv → Bool × Conv := fun c => (false, c)

/-- Shallow embedding of `conversation_clear` (threadlessweb.c:416-434):
under the bound check `fd > 0 && fd < FD_SETSIZE`, an occupied slot has its
owned buffers and record freed — modelled by the slot becoming `none` —
and an empty slot is left alone; out-of-bounds descriptors leave the table
untouched.  Note the lower bound is `0 < fd`, not `0 ≤ fd`. -/
def conversation_clear (tbl : Int → Option Conv) (fd : Int) :
    Int → Option Conv :=
  if 0 < fd ∧ fd < FD_SETSIZE then
    match tbl fd with
    | some _ => fun i => if i = fd then none else tbl i
    | none => tbl
  else tbl

/-- Shallow embedding of `conversation_new` (threadlessweb.c:393-414) on
the conversation table, with `hit` the server's current hit counter.
Under the bound check `fd >= 0 && fd < FD_SETSIZE` any stale occupant of
the slot is freed first (its buffers and record; the freed record is
returned as the second component, `none` when the slot was empty), and a
calloc-fresh conversation with `hit := hit` and `type := RESPONSE_ERROR`
is installed.  Out of bounds, the call is a no-op returning the table
unchanged. -/
def conversation_new (tbl : Int → Option Conv) (hit : Nat) (fd : Int) :
    (Int → Option Conv) × Option Conv :=
  if 0 ≤ fd ∧ fd < FD_SETSIZE then
    ((fun i => if i = fd then some { conv_calloc with hit := hit, type := RESPONSE_ERROR }
               else tbl i),
     tbl fd)
  else (tbl, none)

/-- The Webserve record from threadlessweb.c:62-71, as initialised by
`check_connect`.  Readiness sets are finite sets of descriptors; the
callback field is tracked as a flag for whether the default is installed. -/
structure Webserve where
  listenfd : Nat
  hit : Nat
  active_read_fd_set : Finset Nat
  active_write_fd_set : Finset Nat
  timeout_usec : Nat
  conversation : Int → Option Conv
  callback_is_default : Bool
  quit : Bool

/-- Shallow embedding of `check_connect` (threadlessweb.c:289-310): a
calloc'd Webserve with the listening descriptor stored and registered in
the (otherwise empty) read set, an empty write set, a one-second timeout,
the default callback, and `quit = false`. -/
def check_connect (listenfd : Nat) : Webserve :=
  { listenfd := listenfd, hit := 0,
    active_read_fd_set := {listenfd}, active_write_fd_set := ∅,
    timeout_usec := 1000000,
    conversation := fun _ => none,
    callback_is_default := true,
    quit := false }

/-- Shallow embedding of `start_server` (threadlessweb.c:242-281).  The
`socket`, `bind` and `listen` system calls are modelled as succeeding with
descriptor `listenfd`; `none` models `exit(3)` on the port check
`port < 0 || port > 60000` (threadlessweb.c:256-259). -/
def start_server (port : Int) (listenfd : Nat) : Option Webserve :=
  if port < 0 || port > 60000 then none
  else some (check_connect listenfd)

/-- The readiness-set state of the multiplexer, together with the set of
descriptors currently open in the process (the ghost operating-system
state that justifies `accept` returning a descriptor not already in use). -/
structure MuxState where
  listenfd : Nat
  reads : Finset Nat
  writes : Finset Nat
  opened : Finset Nat

/-- The readiness-set state established by `check_connect`
(threadlessweb.c:297-299): read set `{listenfd}`, empty write set; the
listening descriptor is the one open descriptor. -/
def mux_init (lfd : Nat) : MuxState :=
  { listenfd := lfd, reads := {lfd}, writes := ∅, opened := {lfd} }

/-- One descriptor-servicing action of `poll_once` (threadlessweb.c:348-388)
as it affects the readiness sets.
`accept` (lines 353-363): a connection request on the listening socket
yields a fresh descriptor — POSIX `accept` returns a descriptor not
currently open — which is registered for read readiness.
`serviceRead` (lines 365-378): a read-ready data descriptor is removed
from the read set and, after framing and the callback, registered in the
write set.
`serviceWrite` (lines 381-387): a write-ready descriptor has its response
written, is closed (`web_write`, line 224) and removed from the write set.
Actions that do not touch the sets (the select timeout, a select failure
setting `quit`) need no transition. -/
inductive MuxStep : MuxState → MuxState → Prop
  | accept (s : MuxState) (fd : Nat) (hfresh : fd ∉ s.opened) :
      MuxStep s ⟨s.listenfd, insert fd s.reads, s.writes, insert fd s.opened⟩
  | serviceRead (s : MuxState) (fd : Nat) (hmem : fd ∈ s.reads)
      (hne : fd ≠ s.listenfd) :
      MuxStep s ⟨s.listenfd, s.reads.erase fd, insert fd s.writes, s.opened⟩
  | serviceWrite (s : MuxState) (fd : Nat) (hmem : fd ∈ s.writes) :
      MuxStep s ⟨s.listenfd, s.reads, s.writes.erase fd, s.opened.erase fd⟩

/-- A server state reachable from `start`/`check_connect` by any sequence
of poll-cycle actions. -/
def MuxReachable (lfd : Nat) (s : MuxState) : Prop :=
  Relation.ReflTransGen MuxStep (mux_init lfd) s

/-- The inductive invariant of the multiplexer: the readiness sets are
disjoint and only contain open descriptors. -/
def MuxInv (s : MuxState) : Prop :=
  Disjoint s.reads s.writes ∧ s.reads ∪ s.writes ⊆ s.opened

/-- Spec-side predicate, following the spec's words: a run of (at least)
four consecutive CR/LF characters occurs at position `j` of the buffer. -/
def window4 (buffer : List Nat) (j : Nat) : Bool :=
  decide (j + 4 ≤ buffer.length) &&
    ((buffer.drop j).take 4).all fun b => isCRLF b

/-- The value of `retcount` after the boundary loop scans the given bytes
starting from count `r`: CR/LF bytes increment it, other bytes reset it. -/
def endcount : List Nat → Nat → Nat
  | [], r => r
  | b :: bs, r => if isCRLF b then endcount bs (r + 1) else endcount bs 0

/-- The boundary loop records no boundary while scanning these bytes with
incoming count `r`: every non-CR/LF byte among them is reached with fewer
than four consecutive CR/LF bytes counted. -/
def noFire : List Nat → Nat → Prop
  | [], _ => True
  | b :: bs, r => if isCRLF b then noFire bs (r + 1) else (r < 4 ∧ noFire bs 0)

/-- A full-buffer request whose bytes begin with "GET ": the four method
bytes followed by 8092 filler bytes, 8096 bytes in total. -/
def full_get_request : List Nat := 71 :: 69 :: 84 :: 32 :: List.replicate 8092 97

/-- The bytes of "DELETE / HTTP/1.1\r\n\r\n": a request whose method is in
neither entry of the `requests` table. -/
def delete_request : List Nat :=
  [68, 69, 76, 69, 84, 69, 32, 47, 32, 72, 84, 84, 80, 47, 49, 46, 49,
   13, 10, 13, 10]

/-- A conversation with a two-byte response, for the C5 witness. -/
def c5_example : Conv :=
  { conv_calloc with response := some [104, 105], response_size := 2 }

/-- A table occupying slot 0 with a calloc-fresh conversation. -/
def slot0_table : Int → Option Conv :=
  fun i => if i = 0 then some conv_calloc else none

/-- A table occupying slot 1 with a calloc-fresh conversation. -/
def slot1_table : Int → Option Conv :=
  fun i => if i = 1 then some conv_calloc else none

/-- The table with every slot empty. -/
def empty_table : Int → Option Conv := fun _ => none

example : find_boundary [88, 89, 13, 10, 13, 10, 90] = 6 := by decide
example : find_boundary [88, 13, 10, 13, 10] = 5 := by decide
example : (classify [71, 69, 84, 32, 47]).1 = REQUEST_GET := by decide
example : (classify [103, 101, 116, 32, 47]).1 = REQUEST_GET := by decide
example : (classify [80, 79, 83, 84, 32]).1 = REQUEST_POST := by decide
example : (classify [68, 69, 76]).1 = REQUEST_INVALID := by decide
example : web_read (some [71, 69, 84, 32, 47, 13, 10, 13, 10]) none =
    ReadOutcome.ok none := by decide

lemma length_takeWhile_le (p : Nat → Bool) (l : List Nat) :
    (l.takeWhile p).length ≤ l.length := by
  induction l with
  | nil => simp
  | cons b bs ih =>
    by_cases hb : p b = true
    · simp only [List.takeWhile_cons, hb, if_true, List.length_cons]
      omega
    · simp [List.takeWhile_cons, hb]

lemma boundaryLoop_cons_crlf (b : Nat) (bs : List Nat) (i r : Nat)
    (hb : isCRLF b = true) :
    boundaryLoop (b :: bs) i r = boundaryLoop bs (i + 1) (r + 1) := by
  simp [boundaryLoop, hb]

lemma boundaryLoop_cons_fire (b : Nat) (bs : List Nat) (i r : Nat)
    (hb : isCRLF b = false) (hr : 4 ≤ r) :
    boundaryLoop (b :: bs) i r = some i := by
  simp [boundaryLoop, hb, hr]

lemma boundaryLoop_cons_reset (b : Nat) (bs : List Nat) (i r : Nat)
    (hb : isCRLF b = false) (hr : r < 4) :
    boundaryLoop (b :: bs) i r = boundaryLoop bs (i + 1) 0 := by
  have : ¬ (4 ≤ r) := by omega
  simp [boundaryLoop, hb, this]

lemma boundaryLoop_noFire (A : List Nat) :
    ∀ r i rest, noFire A r →
      boundaryLoop (A ++ rest) i r =
        boundaryLoop rest (i + A.length) (endcount A r) := by
  induction A with
  | nil => intro r i rest _; simp [endcount]
  | cons b bs ih =>
    intro r i rest h
    rw [List.cons_append]
    by_cases hb : isCRLF b = true
    · have h2 : noFire bs (r + 1) := by simpa [noFire, hb] using h
      rw [boundaryLoop_cons_crlf b (bs ++ rest) i r hb, ih (r + 1) (i + 1) rest h2]
      have he : endcount (b :: bs) r = endcount bs (r + 1) := by
        simp [endcount, hb]
      rw [he]
      congr 1
      simp [List.length_cons]
      omega
    · rw [Bool.not_eq_true] at hb
      have h2 : r < 4 ∧ noFire bs 0 := by simpa [noFire, hb] using h
      rw [boundaryLoop_cons_reset b (bs ++ rest) i r hb h2.1, ih 0 (i + 1) rest h2.2]
      have he : endcount (b :: bs) r = endcount bs 0 := by
        simp [endcount, hb]
      rw [he]
      congr 1
      simp [List.length_cons]
      omega

lemma endcount_allCRLF (R : List Nat)
    (h : (R.all fun b => isCRLF b) = true) :
    ∀ r, endcount R r = r + R.length := by
  induction R with
  | nil => intro r; simp [endcount]
  | cons b bs ih =>
    intro r
    simp only [List.all_cons, Bool.and_eq_true] at h
    simp only [endcount, h.1, if_true, ih h.2, List.length_cons]
    omega

lemma noFire_allCRLF (R : List Nat)
    (h : (R.all fun b => isCRLF b) = true) :
    ∀ r, noFire R r := by
  induction R with
  | nil => intro r; trivial
  | cons b bs ih =>
    intro r
    simp only [List.all_cons, Bool.and_eq_true] at h
    simp only [noFire, h.1, if_true]
    exact ih h.2 (r + 1)

lemma noFire_append (X Y : List Nat) :
    ∀ r, noFire X r → noFire Y (endcount X r) → noFire (X ++ Y) r := by
  induction X with
  | nil => intro r _ hY; simpa [endcount] using hY
  | cons b bs ih =>
    intro r hX hY
    by_cases hb : isCRLF b = true
    · have h2 : noFire bs (r + 1) := by simpa [noFire, hb] using hX
      have h3 : noFire Y (endcount bs (r + 1)) := by
        simpa [endcount, hb] using hY
      simpa [noFire, hb] using ih (r + 1) h2 h3
    · have h2 : r < 4 ∧ noFire bs 0 := by simpa [noFire, hb] using hX
      have h3 : noFire Y (endcount bs 0) := by simpa [endcount, hb] using hY
      have := ih 0 h2.2 h3
      simp [noFire, hb, h2.1, this]

lemma window4_drop (L : List Nat) (m j : Nat)
    (h : window4 (L.drop m) j = true) : window4 L (m + j) = true := by
  unfold window4 at h ⊢
  rw [Bool.and_eq_true] at h ⊢
  obtain ⟨h1, h2⟩ := h
  rw [decide_eq_true_iff] at h1
  rw [List.length_drop] at h1
  constructor
  · rw [decide_eq_true_iff]; omega
  · rw [List.drop_drop] at h2
    exact h2

lemma takeWhile_window (L : List Nat)
    (h : 4 ≤ (L.takeWhile fun b => isCRLF b).length) :
    window4 L 0 = true := by
  have hlen : (L.takeWhile fun b => isCRLF b).length ≤ L.length :=
    length_takeWhile_le _ _
  unfold window4
  rw [Bool.and_eq_true]
  constructor
  · rw [decide_eq_true_iff]; omega
  · rw [List.drop_zero]
    have hsplit := List.takeWhile_append_dropWhile (fun b => isCRLF b) L
    rw [List.all_eq_true]
    intro x hx
    have hx4 : x ∈ L.take 4 := hx
    have : L.take 4 = (L.takeWhile fun b => isCRLF b).take 4 := by
      conv_lhs => rw [← hsplit]
      rw [List.take_append_of_le_length h]
    rw [this] at hx4
    have hxT : x ∈ L.takeWhile fun b => isCRLF b :=
      List.mem_of_mem_take hx4
    exact List.mem_takeWhile_imp hxT

lemma windows_tail (b : Nat) (bs : List Nat)
    (h : ∀ j, window4 (b :: bs) j = false) :
    ∀ j, window4 bs j = false := by
  intro j
  cases hw : window4 bs j with
  | false => rfl
  | true =>
    have : window4 ((b :: bs).drop 1) j = true := by simpa using hw
    have := window4_drop (b :: bs) 1 j this
    rw [h (1 + j)] at this
    exact absurd this (by simp)

lemma windows_noFire_aux (A : List Nat) :
    ∀ r, (∀ j, window4 A j = false) →
      ((A.takeWhile fun b => isCRLF b).length < A.length →
        r + (A.takeWhile fun b => isCRLF b).length < 4) →
      noFire A r := by
  induction A with
  | nil => intro r _ _; trivial
  | cons b bs ih =>
    intro r hwin hlead
    by_cases hb : isCRLF b = true
    · simp only [noFire, hb, if_true]
      apply ih (r + 1) (windows_tail b bs hwin)
      intro hlt
      have htw : (b :: bs).takeWhile (fun x => isCRLF x) =
          b :: bs.takeWhile (fun x => isCRLF x) := by
        simp [List.takeWhile_cons, hb]
      have := hlead (by rw [htw]; simp; omega)
      rw [htw] at this
      simp only [List.length_cons] at this
      omega
    · simp only [noFire, hb, if_false]
      have htw : (b :: bs).takeWhile (fun x => isCRLF x) = [] := by
        simp [List.takeWhile_cons, hb]
      refine ⟨?_, ?_⟩
      · have := hlead (by rw [htw]; simp)
        rw [htw] at this
        simpa using this
      · apply ih 0 (windows_tail b bs hwin)
        intro _
        by_contra hge
        push_neg at hge
        have h4 : 4 ≤ (bs.takeWhile fun x => isCRLF x).length := by omega
        have := takeWhile_window bs h4
        rw [windows_tail b bs hwin 0] at this
        exact absurd this (by simp)

lemma windows_noFire (A : List Nat)
    (hwin : ∀ j, window4 A j = false) : noFire A 0 := by
  apply windows_noFire_aux A 0 hwin
  intro _
  by_contra hge
  push_neg at hge
  have h4 : 4 ≤ (A.takeWhile fun x => isCRLF x).length := by omega
  have := takeWhile_window A h4
  rw [hwin 0] at this
  exact absurd this (by simp)

lemma window4_short (A : List Nat) (h : A.length < 4) (j : Nat) :
    window4 A j = false := by
  unfold window4
  have : ¬ (j + 4 ≤ A.length) := by omega
  simp [this]

/-- Claim C2: for every input byte buffer, the framer splits it into an
independently owned header segment and body segment at the first run of at
least four consecutive CR/LF characters — the boundary sits at the right
edge of that run, so the delimiter run stays with the header — and if no
run of four or more consecutive CR/LF characters occurs anywhere in the
buffer, the boundary defaults to the end of the buffer, the entire input
becoming the header with an empty body.  The run case is stated via a
decomposition `buffer = A ++ R ++ B` in which `R` is the first such run
(`A` contains no four consecutive CR/LF bytes, `R` is all CR/LF of length
at least 4, and `B` does not start with CR/LF). -/
theorem tw_C2 (buffer A R B : List Nat) :
    request_header buffer ++ request_body buffer = buffer ∧
    ((∀ j, window4 buffer j = false) →
      find_boundary buffer = buffer.length ∧
      request_header buffer = buffer ∧ request_body buffer = []) ∧
    (buffer = A ++ R ++ B →
      (∀ j, window4 A j = false) →
      (R.all fun b => isCRLF b) = true →
      4 ≤ R.length →
      (B = [] ∨ ∃ b B2, B = b :: B2 ∧ isCRLF b = false) →
      find_boundary buffer = A.length + R.length ∧
      request_header buffer = A ++ R ∧ request_body buffer = B) := by
  refine ⟨List.take_append_drop _ _, ?_, ?_⟩
  · intro h
    have hnf := windows_noFire buffer h
    have hloop := boundaryLoop_noFire buffer 0 0 [] hnf
    rw [List.append_nil] at hloop
    have hfb : find_boundary buffer = buffer.length := by
      unfold find_boundary
      rw [hloop]
      rfl
    refine ⟨hfb, ?_, ?_⟩
    · rw [request_header, hfb, List.take_length]
    · rw [request_body, hfb, List.drop_length]
  · intro hbuf hA hR hRlen hB
    subst hbuf
    have hnfA := windows_noFire A hA
    have hnfR := noFire_allCRLF R hR (endcount A 0)
    have hloop : boundaryLoop ((A ++ R) ++ B) 0 0 =
        boundaryLoop B (A.length + R.length) (endcount A 0 + R.length) := by
      rw [List.append_assoc,
        boundaryLoop_noFire A 0 0 (R ++ B) hnfA,
        boundaryLoop_noFire R (endcount A 0) (0 + A.length) B hnfR,
        endcount_allCRLF R hR]
      congr 1
      omega
    have hfb : find_boundary (A ++ R ++ B) = A.length + R.length := by
      rcases hB with hBnil | ⟨b, B2, hBeq, hbF⟩
      · subst hBnil
        unfold find_boundary
        rw [hloop]
        simp [boundaryLoop, List.length_append]
      · subst hBeq
        unfold find_boundary
        rw [hloop, boundaryLoop_cons_fire b B2 _ _ hbF (by omega)]
        rfl
    have hlenAR : (A ++ R).length = A.length + R.length := List.length_append A R
    refine ⟨hfb, ?_, ?_⟩
    · rw [request_header, hfb, List.take_left' hlenAR]
    · rw [request_body, hfb, List.drop_left' hlenAR]

/-- Witness for C2 at a concrete buffer: "XY\r\n\r\nZ" splits after the
four-byte CR/LF run, header "XY\r\n\r\n", body "Z". -/
theorem tw_C2_witness :
    find_boundary [88, 89, 13, 10, 13, 10, 90] = 6 ∧
    request_header [88, 89, 13, 10, 13, 10, 90] = [88, 89, 13, 10, 13, 10] ∧
    request_body [88, 89, 13, 10, 13, 10, 90] = [90] := by
  have h := (tw_C2 [88, 89, 13, 10, 13, 10, 90] [88, 89] [13, 10, 13, 10] [90]).2.2
    rfl (window4_short [88, 89] (by decide)) (by decide) (by decide)
    (Or.inr ⟨90, [], rfl, by decide⟩)
  simpa using h

lemma isCRLF_cases (b : Nat) (h : isCRLF b = true) : b = 13 ∨ b = 10 := by
  unfold isCRLF at h
  rcases Bool.or_eq_true (b == CR) (b == LF) |>.mp h with h2 | h2
  · exact Or.inl (eq_of_beq h2)
  · exact Or.inr (eq_of_beq h2)

lemma beq_toLower_ne (a q : Nat) (ha : toLower a = a) (h : toLower q ≠ a) :
    (toLower a == toLower q) = false := by
  rw [ha]
  cases hcase : (a == toLower q) with
  | false => rfl
  | true => exact absurd (eq_of_beq hcase).symm h

lemma scrub_cons (b : Nat) (bs : List Nat) :
    scrub (b :: bs) = (if isCRLF b then 42 else b) :: scrub bs := rfl

/-- The CR/LF scrub of threadlessweb.c:157-161 cannot change whether the
buffer matches a method entry of the `requests` table: the table entries
contain no CR, LF or star byte (up to case folding), and the scrub maps
CR and LF to the star byte while fixing everything else. -/
lemma strncasecmpEq_scrub : ∀ (p : List Nat),
    (∀ x ∈ p, toLower x ≠ 42 ∧ toLower x ≠ 13 ∧ toLower x ≠ 10) →
    ∀ buf, strncasecmpEq (scrub buf) p = strncasecmpEq buf p := by
  intro p
  induction p with
  | nil =>
    intro _ buf
    cases buf <;> rfl
  | cons q qs ih =>
    intro hp buf
    have hq := hp q (by simp)
    have hqs : ∀ x ∈ qs, toLower x ≠ 42 ∧ toLower x ≠ 13 ∧ toLower x ≠ 10 :=
      fun x hx => hp x (by simp [hx])
    cases buf with
    | nil => rfl
    | cons b bs =>
      rw [scrub_cons]
      show ((toLower (if isCRLF b then 42 else b) == toLower q) &&
          strncasecmpEq (scrub bs) qs) =
        ((toLower b == toLower q) && strncasecmpEq bs qs)
      rw [ih hqs bs]
      by_cases hb : isCRLF b = true
      · have h42 : (if isCRLF b then (42 : Nat) else b) = 42 := by simp [hb]
        rw [h42]
        have hL : (toLower 42 == toLower q) = false :=
          beq_toLower_ne 42 q (by decide) hq.1
        rcases isCRLF_cases b hb with rfl | rfl
        · rw [hL, beq_toLower_ne 13 q (by decide) hq.2.1]
        · rw [hL, beq_toLower_ne 10 q (by decide) hq.2.2]
      · rw [Bool.not_eq_true] at hb
        have hbb : (if isCRLF b then (42 : Nat) else b) = b := by simp [hb]
        rw [hbb]

/-- The classification loop, unfolded over the two-entry `requests` table. -/
lemma classify_eq (buf : List Nat) : classify buf =
    (if strncasecmpEq buf [71, 69, 84, 32] then ((0 : Int), 4)
     else if strncasecmpEq buf [80, 79, 83, 84, 32] then ((1 : Int), 5)
     else ((-1 : Int), 0)) := by
  simp only [classify, requests, classifyAux, REQUEST_INVALID]
  norm_num

/-- The classification of threadlessweb.c:164-173 is unchanged by the
CR/LF scrub that precedes it. -/
lemma classify_scrub (buf : List Nat) : classify (scrub buf) = classify buf := by
  rw [classify_eq, classify_eq,
    strncasecmpEq_scrub [71, 69, 84, 32] (by decide) buf,
    strncasecmpEq_scrub [80, 79, 83, 84, 32] (by decide) buf]

/-- Claim C6: the framer classifies a request's method by checking the
fixed table of prefixes in order (GET first, then POST), case-insensitively,
with the first match winning: the buffer is classified GET iff it begins,
case-insensitively, with "GET ", POST iff it begins with "POST " (and not
"GET "), and REQUEST_INVALID otherwise.  The classification is applied, as
in `web_read`, to the scrubbed buffer, and the beginning-with conditions
are about the unscrubbed buffer. -/
theorem tw_C6 (buffer : List Nat) :
    ((classify (scrub buffer)).1 = REQUEST_GET ↔
      strncasecmpEq buffer [71, 69, 84, 32] = true) ∧
    ((classify (scrub buffer)).1 = REQUEST_POST ↔
      (strncasecmpEq buffer [80, 79, 83, 84, 32] = true ∧
       strncasecmpEq buffer [71, 69, 84, 32] = false)) ∧
    ((classify (scrub buffer)).1 = REQUEST_INVALID ↔
      (strncasecmpEq buffer [71, 69, 84, 32] = false ∧
       strncasecmpEq buffer [80, 79, 83, 84, 32] = false)) := by
  rw [classify_scrub, classify_eq]
  by_cases hG : strncasecmpEq buffer [71, 69, 84, 32] = true
  · simp [hG, REQUEST_GET, REQUEST_POST, REQUEST_INVALID]
  · rw [Bool.not_eq_true] at hG
    by_cases hP : strncasecmpEq buffer [80, 79, 83, 84, 32] = true
    · simp [hG, hP, REQUEST_GET, REQUEST_POST, REQUEST_INVALID]
    · rw [Bool.not_eq_true] at hP
      simp [hG, hP, REQUEST_GET, REQUEST_POST, REQUEST_INVALID]

/-- Claim C10: when a read fills the entire fixed-size buffer (exactly
BUFSIZE = 8096 bytes), `web_read` zero-terminates the buffer at position 0
before method classification, so the request is classified
REQUEST_INVALID and takes the forbidden fault path (`forbidden(fd)`
followed by `exit(3)`), whatever the received bytes — even when they begin,
case-insensitively, with "GET " or "POST ". -/
theorem tw_C10 (bytes : List Nat) (h : bytes.length = BUFSIZE) (c : Conv) :
    (classify (scrub (read_terminate bytes))).1 = REQUEST_INVALID ∧
    web_read (some bytes) (some c) = ReadOutcome.exits 3 true := by
  have hterm : read_terminate bytes = zeroFirst bytes := by
    unfold read_terminate
    rw [h]
    simp [BUFSIZE]
  cases bytes with
  | nil => simp [BUFSIZE] at h
  | cons b rest =>
    have hz : zeroFirst (b :: rest) = 0 :: rest := rfl
    have h71 : (toLower 0 == toLower 71) = false := by decide
    have h80 : (toLower 0 == toLower 80) = false := by decide
    have hG : strncasecmpEq (0 :: rest) [71, 69, 84, 32] = false := by
      show ((toLower 0 == toLower 71) && strncasecmpEq rest [69, 84, 32]) = false
      rw [h71, Bool.false_and]
    have hP : strncasecmpEq (0 :: rest) [80, 79, 83, 84, 32] = false := by
      show ((toLower 0 == toLower 80) && strncasecmpEq rest [79, 83, 84, 32]) = false
      rw [h80, Bool.false_and]
    have htp : (classify (scrub (read_terminate (b :: rest)))).1 = REQUEST_INVALID := by
      rw [hterm, hz, classify_scrub, classify_eq, hG, hP]
      simp [REQUEST_INVALID]
    refine ⟨htp, ?_⟩
    simp only [web_read, htp]
    norm_num [REQUEST_INVALID, REQUEST_NUM]

/-- Witness for C10: the 8096-byte buffer beginning with "GET " is
classified invalid and takes the forbidden exit path. -/
theorem tw_C10_witness :
    strncasecmpEq full_get_request [71, 69, 84, 32] = true ∧
    (classify (scrub (read_terminate full_get_request))).1 = REQUEST_INVALID ∧
    web_read (some full_get_request) (some conv_calloc) = ReadOutcome.exits 3 true := by
  have hlen : full_get_request.length = BUFSIZE := by
    rw [full_get_request, List.length_cons, List.length_cons, List.length_cons,
      List.length_cons, List.length_replicate, BUFSIZE]
  exact ⟨rfl, tw_C10 full_get_request hlen conv_calloc⟩

/-- Claim C1, evaluated on the code at the faulting inputs.  On an
unrecognized method (here a DELETE request) and on a failed or empty read,
`web_read` writes the canned 403 document and then calls `exit(3)`
(threadlessweb.c:106-110 and 179-184): the outcome is process termination
with exit code 3, not the termination of that one connection, so the poll
loop does not continue serving other connections.  The user callback is
indeed never invoked (the process exits inside `web_read`). -/
theorem tw_C1 :
    web_read (some delete_request) (some { conv_calloc with hit := 1 }) =
      ReadOutcome.exits 3 true ∧
    web_read none (some { conv_calloc with hit := 1 }) =
      ReadOutcome.exits 3 true := by
  constructor
  · decide
  · rfl

/-- Claim C3, evaluated on the code.  The fallback test at
threadlessweb.c:373 reads `(conversation_callback == NULL) ||
(conv_result = false)`; the second disjunct is an assignment evaluating to
`false`, so when a registered callback returns false the built-in default
callback does not run and the response fields stay empty (the client still
receives the canned body only because `web_write` substitutes it when
`response` is NULL).  The default does run, and fills the response fields,
when the callback pointer is NULL. -/
theorem tw_C3 :
    (dispatch_callback (some refuse_callback) conv_calloc).2 = false ∧
    (dispatch_callback (some refuse_callback) conv_calloc).1.response = none ∧
    (dispatch_callback none conv_calloc).2 = true ∧
    (dispatch_callback none conv_calloc).1.response =
      some (RESPONSE_CONTENT ++ [0]) :=
  ⟨rfl, rfl, rfl, rfl⟩

/-- Counterexample to claim C4 as stated: port 0 lies outside (0, 60000],
yet `start_server` accepts it — the check at threadlessweb.c:256 is
`port < 0`, not `port < 1`, despite its own error text "try 1->60000". -/
theorem tw_C4_counterexample :
    (start_server 0 5).isSome = true ∧ ¬ (0 < (0 : Int) ∧ (0 : Int) ≤ 60000) := by
  constructor
  · rfl
  · decide

/-- Claim C4 as amended: `start_server` accepts exactly the ports in
[0, 60000] — for each of them the returned handle's listening descriptor
is registered in the awaiting-read set and the awaiting-write set is
empty — and rejects (exits on) every port below 0 or above 60000. -/
theorem tw_C4 (port : Int) (listenfd : Nat) :
    (0 ≤ port → port ≤ 60000 →
      ∃ w, start_server port listenfd = some w ∧
        w.listenfd ∈ w.active_read_fd_set ∧ w.active_write_fd_set = ∅) ∧
    (port < 0 ∨ 60000 < port → start_server port listenfd = none) := by
  constructor
  · intro h0 h6
    refine ⟨check_connect listenfd, ?_, Finset.mem_singleton_self _, rfl⟩
    unfold start_server
    have hc : ¬ ((port < 0 || port > 60000) = true) := by
      intro hcontra
      rcases Bool.or_eq_true _ _ |>.mp hcontra with hx | hx
      · exact absurd (of_decide_eq_true hx) (by omega)
      · exact absurd (of_decide_eq_true hx) (by omega)
    rw [if_neg hc]
  · intro h
    unfold start_server
    have hc : (port < 0 || port > 60000) = true := by
      rcases h with h | h
      · exact Bool.or_eq_true _ _ |>.mpr (Or.inl (decide_eq_true h))
      · exact Bool.or_eq_true _ _ |>.mpr (Or.inr (decide_eq_true h))
    rw [if_pos hc]

/-- Witness for C4 at port 8080 with listening descriptor 4. -/
theorem tw_C4_witness :
    ∃ w, start_server 8080 4 = some w ∧
      w.listenfd ∈ w.active_read_fd_set ∧ w.active_write_fd_set = ∅ :=
  (tw_C4 8080 4).1 (by decide) (by decide)

/-- Counterexample to claim C5 as stated: under the default callback the
payload written is not the body "Okay\n" — it is six bytes, the five
content bytes plus the string literal's NUL terminator, because
RESPONSE_LENGTH is `sizeof` and counts the terminator. -/
theorem tw_C5_counterexample :
    (web_write (some (default_conv_callback conv_calloc).2)).payload ≠
      RESPONSE_CONTENT := by
  decide

/-- Claim C5 as amended: for any conversation whose stated response size
does not exceed its response buffer (as holds for the default callback and
every memory-safe callback), the write step sends a 200-status response
whose Content-Length header field equals the exact byte length of the
payload written, and closes the connection; under the default callback the
payload is the body "Okay\n" together with a trailing NUL byte. -/
theorem tw_C5 (c : Conv)
    (hwf : ∀ r, c.response = some r → c.response_size ≤ r.length) :
    (web_write (some c)).content_length = (web_write (some c)).payload.length ∧
    (web_write (some c)).header =
      http_header ((web_write (some c)).payload.length) ∧
    (web_write (some c)).closed = true ∧
    (web_write (some (default_conv_callback conv_calloc).2)).payload =
      RESPONSE_CONTENT ++ [0] := by
  have hcl : (web_write (some c)).content_length =
      (web_write (some c)).payload.length := by
    cases hr : c.response with
    | none => simp [web_write, hr, RESPONSE_LENGTH, RESPONSE_CONTENT]
    | some r =>
      have hle := hwf r hr
      simp only [web_write, hr, List.length_take]
      omega
  have hhd : (web_write (some c)).header =
      http_header ((web_write (some c)).content_length) := by
    cases hr : c.response <;> simp [web_write, hr]
  refine ⟨hcl, ?_, ?_, ?_⟩
  · rw [hhd, hcl]
  · cases hr : c.response <;> simp [web_write, hr]
  · decide

/-- Witness for C5 at a concrete conversation carrying the two-byte
response "hi". -/
theorem tw_C5_witness :
    (web_write (some c5_example)).content_length =
      (web_write (some c5_example)).payload.length ∧
    (web_write (some c5_example)).header =
      http_header ((web_write (some c5_example)).payload.length) ∧
    (web_write (some c5_example)).closed = true ∧
    (web_write (some (default_conv_callback conv_calloc).2)).payload =
      RESPONSE_CONTENT ++ [0] := by
  apply tw_C5
  intro r hr
  injection (show some [104, 105] = some r from hr) with h
  subst h
  decide

lemma mux_inv_init (lfd : Nat) : MuxInv (mux_init lfd) := by
  constructor
  · simp [mux_init]
  · simp [mux_init]

lemma mux_inv_step {s t : MuxState} (hs : MuxInv s) (h : MuxStep s t) :
    MuxInv t := by
  obtain ⟨hdisj, hsub⟩ := hs
  have hreads : s.reads ⊆ s.opened := (Finset.union_subset_iff.mp hsub).1
  have hwrites : s.writes ⊆ s.opened := (Finset.union_subset_iff.mp hsub).2
  cases h with
  | accept fd hfresh =>
    constructor
    · rw [Finset.disjoint_insert_left]
      exact ⟨fun hmem => hfresh (hwrites hmem), hdisj⟩
    · apply Finset.union_subset
      · exact Finset.insert_subset_insert fd hreads
      · exact hwrites.trans (Finset.subset_insert fd s.opened)
  | serviceRead fd hmem hne =>
    constructor
    · rw [Finset.disjoint_insert_right]
      exact ⟨Finset.not_mem_erase fd s.reads,
        hdisj.mono_left (Finset.erase_subset fd s.reads)⟩
    · apply Finset.union_subset
      · exact (Finset.erase_subset fd s.reads).trans hreads
      · rw [Finset.insert_subset_iff]
        exact ⟨hreads hmem, hwrites⟩
  | serviceWrite fd hmem =>
    constructor
    · exact hdisj.mono_right (Finset.erase_subset fd s.writes)
    · apply Finset.union_subset
      · rw [Finset.subset_erase]
        exact ⟨hreads, fun hin => (Finset.disjoint_left.mp hdisj hin) hmem⟩
      · exact Finset.erase_subset_erase fd hwrites

/-- Claim C7: in every server state reachable from `check_connect` by any
sequence of poll-cycle actions, no descriptor is present in both the
awaiting-read set and the awaiting-write set at the same time. -/
theorem tw_C7 (lfd : Nat) (s : MuxState) (h : MuxReachable lfd s) :
    Disjoint s.reads s.writes := by
  have hinv : MuxInv s := by
    induction h with
    | refl => exact mux_inv_init lfd
    | tail hab hbc ih => exact mux_inv_step ih hbc
  exact hinv.1

/-- Witness for C7 at the initial state for listening descriptor 3. -/
theorem tw_C7_witness : Disjoint (mux_init 3).reads (mux_init 3).writes :=
  tw_C7 3 (mux_init 3) Relation.ReflTransGen.refl

/-- Pointwise behaviour of `conversation_clear`: inside the bound check
the addressed slot becomes empty and every other slot is untouched;
outside it nothing changes. -/
lemma conversation_clear_apply (tbl : Int → Option Conv) (fd i : Int) :
    conversation_clear tbl fd i =
      if 0 < fd ∧ fd < FD_SETSIZE ∧ i = fd then none else tbl i := by
  unfold conversation_clear
  by_cases hcond : 0 < fd ∧ fd < FD_SETSIZE
  · rw [if_pos hcond]
    cases htbl : tbl fd with
    | none =>
      dsimp only
      by_cases hi : i = fd
      · subst hi
        simp [hcond.1, hcond.2, htbl]
      · simp [hi]
    | some cx =>
      dsimp only
      by_cases hi : i = fd
      · subst hi
        simp [hcond.1, hcond.2]
      · simp [hi]
  · rw [if_neg hcond]
    have hne : ¬ (0 < fd ∧ fd < FD_SETSIZE ∧ i = fd) := by tauto
    rw [if_neg hne]

/-- Counterexample to claim C8 as stated: descriptor 0 is a valid table
index (within the capacity bounds, and accepted by `conversation_new`),
yet `conversation_clear` on an occupied slot 0 is a no-op — the bound
check at threadlessweb.c:417 is `fd > 0`, so the slot is not set to empty. -/
theorem tw_C8_counterexample :
    conversation_clear slot0_table 0 0 = some conv_calloc ∧
    (0 : Int) < FD_SETSIZE := by
  constructor
  · decide
  · decide

/-- Claim C8 as amended: for every descriptor d with 0 < d < FD_SETSIZE,
release empties the slot, touches no other slot, is idempotent, and is a
no-op on an already-empty slot; descriptors outside that range — including
descriptor 0, which `conversation_new` accepts — leave the table untouched. -/
theorem tw_C8 (tbl : Int → Option Conv) (fd : Int) :
    (0 < fd → fd < FD_SETSIZE →
      conversation_clear tbl fd fd = none ∧
      (∀ i, i ≠ fd → conversation_clear tbl fd i = tbl i) ∧
      conversation_clear (conversation_clear tbl fd) fd =
        conversation_clear tbl fd ∧
      (tbl fd = none → conversation_clear tbl fd = tbl)) ∧
    (fd ≤ 0 ∨ FD_SETSIZE ≤ fd → conversation_clear tbl fd = tbl) := by
  constructor
  · intro h1 h2
    refine ⟨?_, ?_, ?_, ?_⟩
    · rw [conversation_clear_apply, if_pos ⟨h1, h2, rfl⟩]
    · intro i hi
      rw [conversation_clear_apply, if_neg (by tauto)]
    · funext i
      rw [conversation_clear_apply, conversation_clear_apply]
      by_cases hi : i = fd
      · subst hi
        rw [if_pos ⟨h1, h2, rfl⟩, if_pos ⟨h1, h2, rfl⟩]
      · rw [if_neg (by tauto)]
    · intro hempty
      funext i
      rw [conversation_clear_apply]
      by_cases hi : i = fd
      · subst hi
        rw [if_pos ⟨h1, h2, rfl⟩, hempty]
      · rw [if_neg (by tauto)]
  · intro h
    funext i
    rw [conversation_clear_apply, if_neg (by omega)]

/-- Witness for C8 at descriptor 1 on a table occupying slot 1. -/
theorem tw_C8_witness :
    conversation_clear slot1_table 1 1 = none ∧
    conversation_clear (conversation_clear slot1_table 1) 1 =
      conversation_clear slot1_table 1 := by
  have h := (tw_C8 slot1_table 1).1 (by decide) (by decide)
  exact ⟨h.1, h.2.2.1⟩

/-- Counterexample to claim C9 as stated: the Conversation freshly
installed by `conversation_new` does not carry the error-code default in
its result code — its `response_code` is 0 (from calloc), not
RESPONSE_ERROR; the constant RESPONSE_ERROR is stored in the request
`type` field instead (threadlessweb.c:412). -/
theorem tw_C9_counterexample :
    Option.map Conv.response_code ((conversation_new empty_table 7 3).1 3) =
      some 0 ∧
    Option.map Conv.type ((conversation_new empty_table 7 3).1 3) =
      some RESPONSE_ERROR ∧
    (0 : Int) ≠ RESPONSE_ERROR := by
  refine ⟨rfl, rfl, by decide⟩

/-- Claim C9 as amended: for every in-bounds descriptor,
`conversation_new` first releases any stale Conversation occupying the
slot (returned as the freed record) and installs a calloc-fresh
Conversation whose sequence number equals the current hit count, whose
request-type field holds the error-code constant RESPONSE_ERROR (42), and
whose response result code is zero; other slots are untouched, and for
out-of-bounds descriptors the call is a no-op. -/
theorem tw_C9 (tbl : Int → Option Conv) (hit : Nat) (fd : Int) :
    (0 ≤ fd → fd < FD_SETSIZE →
      (conversation_new tbl hit fd).2 = tbl fd ∧
      (conversation_new tbl hit fd).1 fd =
        some { conv_calloc with hit := hit, type := RESPONSE_ERROR } ∧
      (∀ i, i ≠ fd → (conversation_new tbl hit fd).1 i = tbl i)) ∧
    (¬ (0 ≤ fd ∧ fd < FD_SETSIZE) → conversation_new tbl hit fd = (tbl, none)) := by
  constructor
  · intro h1 h2
    have hcond : 0 ≤ fd ∧ fd < FD_SETSIZE := ⟨h1, h2⟩
    unfold conversation_new
    rw [if_pos hcond]
    refine ⟨rfl, by simp, fun i hi => by simp [hi]⟩
  · intro h
    unfold conversation_new
    rw [if_neg h]

/-- Witness for C9 at descriptor 3 with hit count 7 on the empty table. -/
theorem tw_C9_witness :
    (conversation_new empty_table 7 3).2 = empty_table 3 ∧
    (conversation_new empty_table 7 3).1 3 =
      some { conv_calloc with hit := 7, type := RESPONSE_ERROR } := by
  have h := (tw_C9 empty_table 7 3).1 (by decide) (by decide)
  exact ⟨h.1, h.2.1⟩
